import Mathlib

/-!
Shallow embedding of `src/dbg.rs` (zdbg): a minimal ptrace-based debugger.
Machine words are modelled as their 64-bit pattern, a natural number below
2^64; the tracee (target process) is modelled as its memory together with
per-address success of `ptrace::read` / `ptrace::write`; the fallible
ptrace calls whose results the debugger merely dispatches on
(`getregs`, `step`, `waitpid`, `cont`) are passed in as explicit
`Except`-valued oracles, one per call site, in source order.
-/

namespace ZDbg

/-- A 64-bit machine word (the bit pattern of a Rust `i64`). -/
abbrev Word := Nat

/-- `nix::sys::wait::WaitStatus`, reduced to its constructor (the debugger
only ever dispatches on which variant was observed, never on the payloads). -/
inductive WaitStatus where
  | Stopped
  | Exited
  | Signaled
  | PtraceEvent
  | PtraceSyscall
  | Continued
  | StillAlive
deriving DecidableEq, Repr

/-- The `WaitStatus::Exited(..) | WaitStatus::Signaled(..)` test used at every
wait site of `dbg.rs`. -/
def WaitStatus.isDead : WaitStatus → Bool
  | .Exited => true
  | .Signaled => true
  | _ => false

/-- Session errors (`DynError`).  `failedToStart` is
"子プロセスの実行に失敗しました" (process failed to start), `invalidState` is
"子プロセスが不正な状態です" (process is in an invalid state), `ptraceFail`
stands for an error propagated from a fallible ptrace call via `?`. -/
inductive DynErr where
  | failedToStart
  | invalidState
  | ptraceFail
deriving DecidableEq, Repr

/-- Console messages the claims talk about, as events rather than strings. -/
inductive LogEvent where
  | alreadySet (addr : Nat)   -- "<<ブレークポイントは設定済みです : Addr = ..>>"
  | readFail (addr : Nat)     -- "<<ptrace::readに失敗 ..>>"
  | writeFail (addr : Nat)    -- "<<ptrace::writeに失敗 ..>>"
  | childSpawned (pid : Nat)  -- "<<子プロセスの実行に成功しました : PID = ..>>"
  | childExited               -- "<<子プロセスが終了>>"
deriving DecidableEq, Repr

/-- The target process: its memory (a word at every address) and, per address,
whether a `ptrace::read` / `ptrace::write` of the word there succeeds. -/
structure Tracee where
  mem : Nat → Word
  readable : Nat → Bool
  writable : Nat → Bool

/-- `ptrace::read(pid, addr)`: the word at `addr`, or failure. -/
def ptraceRead (t : Tracee) (addr : Nat) : Option Word :=
  if t.readable addr then some (t.mem addr) else none

/-- `ptrace::write(pid, addr, val)`: the updated tracee, or failure
(on failure the target memory is untouched). -/
def ptraceWrite (t : Tracee) (addr : Nat) (val : Word) : Option Tracee :=
  if t.writable addr then
    some { t with mem := fun a => if a = addr then val else t.mem a }
  else none

/-- `DbgInfo` (`src/dbg.rs` lines 13-18): pid, optional breakpoint address,
the saved word `brk_val` (an `i64` in the source), and the target path. -/
structure DbgInfo where
  pid : Nat
  brk_addr : Option Nat
  brk_val : Word
  filename : String
deriving DecidableEq, Repr

/-- The `State` enum (`src/dbg.rs` lines 34-38).  `ZDbg<Running>` /
`ZDbg<NotRunning>` both carry only a `DbgInfo`, so each variant carries one. -/
inductive State where
  | Running (info : DbgInfo)
  | NotRunning (info : DbgInfo)
  | Exit
deriving DecidableEq, Repr

/-- `ZDbg::<T>::set_break_addr` (lines 45-58).  The parsing of the command
tokens is delegated to `get_break_addr`, whose body is absent from the
source (an external collaborator per the spec); its result is passed in as
`parsedAddr`.  Returns the `bool` result, the updated info, and the console
events. -/
def set_break_addr (info : DbgInfo) (parsedAddr : Option Nat) :
    Bool × DbgInfo × List LogEvent :=
  match info.brk_addr with
  | some a => (false, info, [.alreadySet a])
  | none =>
    match parsedAddr with
    | some addr => (true, { info with brk_addr := some addr }, [])
    | none => (false, info, [])

/-- A sequence of `break` commands, each already parsed to `Option` address,
folded through `set_break_addr`; yields the per-call results and the final
info. -/
def run_breaks (info : DbgInfo) : List (Option Nat) →
    List (Bool × List LogEvent) × DbgInfo
  | [] => ([], info)
  | c :: cs =>
    let r := set_break_addr info c
    let rest := run_breaks r.2.1 cs
    ((r.1, r.2.2) :: rest.1, rest.2)

/-- `ZDbg::<Running>::set_break` (lines 200-248): if a breakpoint address is
recorded, read the word there, replace its low byte by `0xcc` ("int 3") —
`(val & !0xff) | 0xcc` on the bit pattern, i.e. `val - val % 256 + 0xcc` —
and write it back, saving the original word in `brk_val` on success.  Read
and write failures are logged and tolerated: the function always returns
`Ok(())`. -/
def set_break (info : DbgInfo) (t : Tracee) :
    Except DynErr (DbgInfo × Tracee × List LogEvent) :=
  match info.brk_addr with
  | none => .ok (info, t, [])
  | some addr =>
    match ptraceRead t addr with
    | none => .ok (info, t, [.readFail addr])
    | some val =>
      let val_int3 := val - val % 256 + 0xcc
      match ptraceWrite t addr val_int3 with
      | some t2 =>
        .ok ({ info with brk_addr := some addr, brk_val := val }, t2, [])
      | none => .ok (info, t, [.writeFail addr])

/-- `ZDbg::<Running>::step_and_break` (lines 252-267).  `getregsRes` is the
result of `getregs(pid)?` projected to `rip`; `stepRes` that of
`ptrace::step(pid, None)?`; `waitRes` that of `waitpid(pid, None)?`. -/
def step_and_break (info : DbgInfo) (t : Tracee)
    (getregsRes : Except DynErr Word)
    (stepRes : Except DynErr Unit)
    (waitRes : Except DynErr WaitStatus) :
    Except DynErr (State × Tracee × List LogEvent) :=
  match getregsRes with
  | .error e => .error e
  | .ok rip =>
    if some rip = info.brk_addr then
      match stepRes with
      | .error e => .error e
      | .ok _ =>
        match waitRes with
        | .error e => .error e
        | .ok ws =>
          if ws.isDead then
            .ok (.NotRunning info, t, [.childExited])
          else
            match set_break info t with
            | .ok (info2, t2, logs) => .ok (.Running info2, t2, logs)
            | .error e => .error e
    else
      .ok (.Running info, t, [])

/-- Modelled from the spec: `wait_child` is called by `do_continue` but is not
defined in `src/dbg.rs`.  Per the spec, `wait_for_stop()` blocks until the
target changes state (stop, exit, or signal-termination), after which a
`continue` leaves the session Running, or NotRunning when the target exited
or was signaled. -/
def wait_child (info : DbgInfo) (waitRes : Except DynErr WaitStatus) :
    Except DynErr (State × List LogEvent) :=
  match waitRes with
  | .error e => .error e
  | .ok ws =>
    if ws.isDead then .ok (.NotRunning info, [.childExited])
    else .ok (.Running info, [])

/-- `ZDbg::<Running>::do_continue` (lines 174-184): step over a breakpoint if
stopped on it, then `ptrace::cont(pid, None);` — whose `Result` the source
drops on the floor (no `?`, no binding), hence the unused `contRes` — and
wait for the child.  `contWaitRes` is the wait status observed by
`wait_child`. -/
def do_continue (info : DbgInfo) (t : Tracee)
    (getregsRes : Except DynErr Word)
    (stepRes : Except DynErr Unit)
    (stepWaitRes : Except DynErr WaitStatus)
    (contRes : Except DynErr Unit)
    (contWaitRes : Except DynErr WaitStatus) :
    Except DynErr (State × Tracee × List LogEvent) :=
  match step_and_break info t getregsRes stepRes stepWaitRes with
  | .error e => .error e
  | .ok (.Running info2, t2, logs) =>
    match wait_child info2 contWaitRes with
    | .error e => .error e
    | .ok (st, logs2) => .ok (st, t2, logs ++ logs2)
  | .ok (st, t2, logs) => .ok (st, t2, logs)

/-- `ZDbg::<Running>::do_exit` (lines 188-196): loop { kill; waitpid; stop on
`Exited`/`Signaled` }.  `waits` is the stream of statuses the successive
`waitpid` calls observe; the result is the number of kill requests sent
before returning, or `none` when the loop never returns within the observed
stream (the target never reported dead). -/
def do_exit (waits : List WaitStatus) : Option Nat :=
  match waits with
  | [] => none
  | ws :: rest =>
    if ws.isDead then some 1
    else
      match do_exit rest with
      | some n => some (n + 1)
      | none => none

/-- The `"exit"` arm of `ZDbg::<Running>::do_cmd` (lines 156-159):
`self.do_exit()?; return Ok(State::Exit)`.  Yields `State.Exit` exactly when
`do_exit` returned. -/
def do_cmd_exit (waits : List WaitStatus) : Option State :=
  match do_exit waits with
  | some _ => some State.Exit
  | none => none

/-- `ZDbg::<NotRunning>::do_run`, parent branch (lines 120-135): dispatch on
the first `waitpid(child)` status.  On `Stopped` the child's pid is recorded,
a `ZDbg<Running>` is built from it, and `set_break` then `do_continue` run on
it; `Exited`/`Signaled` fail with "process failed to start"; anything else
fails with "process is in an invalid state".  The fork/exec side of the
child is outside the embedding; `child` is its pid. -/
def do_run (info : DbgInfo) (child : Nat) (firstWait : WaitStatus) (t : Tracee)
    (getregsRes : Except DynErr Word)
    (stepRes : Except DynErr Unit)
    (stepWaitRes : Except DynErr WaitStatus)
    (contRes : Except DynErr Unit)
    (contWaitRes : Except DynErr WaitStatus) :
    Except DynErr (State × Tracee × List LogEvent) :=
  match firstWait with
  | .Stopped =>
    let info1 := { info with pid := child }
    match set_break info1 t with
    | .ok (info2, t2, logs) =>
      match do_continue info2 t2 getregsRes stepRes stepWaitRes contRes contWaitRes with
      | .ok (st, t3, logs2) => .ok (st, t3, .childSpawned child :: (logs ++ logs2))
      | .error e => .error e
    | .error e => .error e
  | .Exited => .error .failedToStart
  | .Signaled => .error .failedToStart
  | _ => .error .invalidState

/-- The patched word `(val & !0xff) | 0xcc` always has low byte `0xcc`. -/
theorem patch_low_byte_mod (w : Nat) : (w - w % 256 + 0xcc) % 256 = 0xcc := by
  omega

/-- Patching a word whose low byte is already `0xcc` leaves it unchanged. -/
theorem patch_idem (w : Nat) (h : w % 256 = 0xcc) :
    w - w % 256 + 0xcc = w := by
  omega

/-! Evaluation lemmas for `set_break`, one per branch of the source. -/

/-- With no breakpoint recorded, `set_break` returns at once. -/
theorem set_break_eval_no_addr (info : DbgInfo) (t : Tracee)
    (h : info.brk_addr = none) : set_break info t = .ok (info, t, []) := by
  simp [set_break, h]

/-- The successful read-patch-write branch of `set_break`. -/
theorem set_break_eval_ok (info : DbgInfo) (t : Tracee) (addr : Nat)
    (h : info.brk_addr = some addr)
    (hr : t.readable addr = true) (hw : t.writable addr = true) :
    set_break info t = .ok
      ({ info with brk_addr := some addr, brk_val := t.mem addr },
       { t with mem := fun a =>
          if a = addr then t.mem addr - t.mem addr % 256 + 0xcc else t.mem a },
       []) := by
  simp [set_break, ptraceRead, ptraceWrite, h, hr, hw]

/-- The read-failure branch of `set_break`. -/
theorem set_break_eval_read_fail (info : DbgInfo) (t : Tracee) (addr : Nat)
    (h : info.brk_addr = some addr) (hr : t.readable addr = false) :
    set_break info t = .ok (info, t, [.readFail addr]) := by
  simp [set_break, ptraceRead, h, hr]

/-- The write-failure branch of `set_break`. -/
theorem set_break_eval_write_fail (info : DbgInfo) (t : Tracee) (addr : Nat)
    (h : info.brk_addr = some addr)
    (hr : t.readable addr = true) (hw : t.writable addr = false) :
    set_break info t = .ok (info, t, [.writeFail addr]) := by
  simp [set_break, ptraceRead, ptraceWrite, h, hr, hw]

/-- `set_break` never fails, and it never changes the recorded pid. -/
theorem set_break_ok_pid (info : DbgInfo) (t : Tracee) :
    ∃ info2 t2 logs, set_break info t = .ok (info2, t2, logs) ∧
      info2.pid = info.pid := by
  cases h : info.brk_addr with
  | none => exact ⟨info, t, [], set_break_eval_no_addr info t h, rfl⟩
  | some addr =>
    cases hr : t.readable addr with
    | false => exact ⟨info, t, _, set_break_eval_read_fail info t addr h hr, rfl⟩
    | true =>
      cases hw : t.writable addr with
      | false =>
        exact ⟨info, t, _, set_break_eval_write_fail info t addr h hr hw, rfl⟩
      | true => exact ⟨_, _, _, set_break_eval_ok info t addr h hr hw, rfl⟩

/-- C2: Whenever install (`set_break`) succeeds with a recorded breakpoint
address, the word written to target memory at that address equals the word
read there with its low byte replaced by the trap encoding `0xcc`, and the
original value saved in `DbgInfo.brk_val` has the pre-patch low byte. -/
theorem set_break_patches_low_byte (info : DbgInfo) (t : Tracee) (addr : Nat)
    (h : info.brk_addr = some addr)
    (hr : t.readable addr = true) (hw : t.writable addr = true) :
    ∃ info2 t2 logs,
      set_break info t = .ok (info2, t2, logs) ∧
      t2.mem addr = t.mem addr - t.mem addr % 256 + 0xcc ∧
      t2.mem addr % 256 = 0xcc ∧
      info2.brk_val = t.mem addr ∧
      info2.brk_val % 256 = t.mem addr % 256 := by
  refine ⟨_, _, _, set_break_eval_ok info t addr h hr hw, ?_, ?_, rfl, rfl⟩
  · simp
  · show (if addr = addr then t.mem addr - t.mem addr % 256 + 0xcc
        else t.mem addr) % 256 = 0xcc
    rw [if_pos rfl]
    exact patch_low_byte_mod (t.mem addr)

/-- Closed witness for `set_break_patches_low_byte`. -/
theorem set_break_patches_low_byte_witness :
    ∃ info2 t2 logs,
      set_break ⟨0, some 16, 0, ""⟩ ⟨fun _ => 0x90, fun _ => true, fun _ => true⟩
        = .ok (info2, t2, logs) ∧
      t2.mem 16 = 0x90 - 0x90 % 256 + 0xcc ∧
      t2.mem 16 % 256 = 0xcc ∧
      info2.brk_val = 0x90 ∧
      info2.brk_val % 256 = 0x90 % 256 :=
  set_break_patches_low_byte ⟨0, some 16, 0, ""⟩
    ⟨fun _ => 0x90, fun _ => true, fun _ => true⟩ 16 rfl rfl rfl

/-- C3: when the read of target memory at the breakpoint address fails, or the
write of the patched word fails, `set_break` logs the error and still returns
success, the target memory is unmodified, and the `DbgInfo` fields are
unchanged. -/
theorem set_break_access_failure_nonfatal (info : DbgInfo) (t : Tracee)
    (addr : Nat) (h : info.brk_addr = some addr) :
    (t.readable addr = false →
      set_break info t = .ok (info, t, [.readFail addr])) ∧
    (t.readable addr = true → t.writable addr = false →
      set_break info t = .ok (info, t, [.writeFail addr])) :=
  ⟨fun hr => set_break_eval_read_fail info t addr h hr,
   fun hr hw => set_break_eval_write_fail info t addr h hr hw⟩

/-- Closed witness for `set_break_access_failure_nonfatal` (read failure). -/
theorem set_break_access_failure_nonfatal_witness :
    set_break ⟨0, some 16, 0, ""⟩ ⟨fun _ => 0, fun _ => false, fun _ => false⟩
      = .ok (⟨0, some 16, 0, ""⟩, ⟨fun _ => 0, fun _ => false, fun _ => false⟩,
             [.readFail 16]) :=
  (set_break_access_failure_nonfatal ⟨0, some 16, 0, ""⟩
    ⟨fun _ => 0, fun _ => false, fun _ => false⟩ 16 rfl).1 rfl

/-- C4: when the program counter is not at the recorded breakpoint address
(in particular when no address is recorded), `step_and_break` is a no-op:
no step is issued (the result does not depend on the step/wait oracles),
target memory is unchanged, and the same Running state with the same
`DbgInfo` is returned. -/
theorem step_and_break_not_at_brk (info : DbgInfo) (t : Tracee) (rip : Word)
    (stepRes : Except DynErr Unit) (waitRes : Except DynErr WaitStatus)
    (h : some rip ≠ info.brk_addr) :
    step_and_break info t (.ok rip) stepRes waitRes =
      .ok (.Running info, t, []) := by
  simp [step_and_break, h]

/-- Closed witness for `step_and_break_not_at_brk`. -/
theorem step_and_break_not_at_brk_witness :
    step_and_break ⟨0, none, 0, ""⟩ ⟨fun _ => 0, fun _ => true, fun _ => true⟩
        (.ok 5) (.error .ptraceFail) (.ok .Exited) =
      .ok (.Running ⟨0, none, 0, ""⟩, ⟨fun _ => 0, fun _ => true, fun _ => true⟩,
           []) :=
  step_and_break_not_at_brk ⟨0, none, 0, ""⟩
    ⟨fun _ => 0, fun _ => true, fun _ => true⟩ 5 (.error .ptraceFail)
    (.ok .Exited) (by decide)

/-- Field-level description of the successful `set_break` branch. -/
theorem set_break_ok_mem (info : DbgInfo) (t : Tracee) (addr : Nat)
    (h : info.brk_addr = some addr)
    (hr : t.readable addr = true) (hw : t.writable addr = true) :
    ∃ info2 t2,
      set_break info t = .ok (info2, t2, []) ∧
      t2.mem addr = t.mem addr - t.mem addr % 256 + 0xcc ∧
      t2.readable = t.readable ∧
      t2.writable = t.writable ∧
      info2.brk_addr = some addr ∧
      info2.brk_val = t.mem addr ∧
      (∀ a, a ≠ addr → t2.mem a = t.mem a) := by
  refine ⟨_, _, set_break_eval_ok info t addr h hr hw, ?_, rfl, rfl, rfl, rfl,
    ?_⟩
  · show (if addr = addr then t.mem addr - t.mem addr % 256 + 0xcc
        else t.mem addr) = t.mem addr - t.mem addr % 256 + 0xcc
    rw [if_pos rfl]
  · intro a ha
    show (if a = addr then t.mem addr - t.mem addr % 256 + 0xcc else t.mem a)
        = t.mem a
    rw [if_neg ha]

/-- C5: when the program counter equals the recorded breakpoint address,
`step_and_break` single-steps and dispatches on the observed status: on
`Exited`/`Signaled` it transitions to NotRunning without reinstalling; on any
other status it reinstalls via `set_break` (on accessible memory the trap
byte `0xcc` is back in the low byte) and stays Running. -/
theorem step_and_break_at_brk (info : DbgInfo) (t : Tracee) (rip : Word)
    (ws : WaitStatus) (h : info.brk_addr = some rip) :
    (ws.isDead = true →
      step_and_break info t (.ok rip) (.ok ()) (.ok ws) =
        .ok (.NotRunning info, t, [.childExited])) ∧
    (ws.isDead = false →
      ∃ info2 t2 logs,
        set_break info t = .ok (info2, t2, logs) ∧
        step_and_break info t (.ok rip) (.ok ()) (.ok ws) =
          .ok (.Running info2, t2, logs) ∧
        (t.readable rip = true → t.writable rip = true →
          t2.mem rip % 256 = 0xcc)) := by
  constructor
  · intro hd
    simp [step_and_break, h, hd]
  · intro hd
    cases hr : t.readable rip with
    | false =>
      refine ⟨info, t, _, set_break_eval_read_fail info t rip h hr, ?_, ?_⟩
      · simp [step_and_break, h, hd, set_break_eval_read_fail info t rip h hr]
      · intro hr' _
        exact absurd hr' (by simp)
    | true =>
      cases hw : t.writable rip with
      | false =>
        refine ⟨info, t, _, set_break_eval_write_fail info t rip h hr hw, ?_,
          ?_⟩
        · simp [step_and_break, h, hd,
            set_break_eval_write_fail info t rip h hr hw]
        · intro _ hw'
          exact absurd hw' (by simp)
      | true =>
        obtain ⟨info2, t2, hsb, hm, _, _, _, _, _⟩ :=
          set_break_ok_mem info t rip h hr hw
        refine ⟨info2, t2, [], hsb, ?_, ?_⟩
        · simp [step_and_break, h, hd, hsb]
        · intro _ _
          rw [hm]
          exact patch_low_byte_mod (t.mem rip)

/-- Closed witness for `step_and_break_at_brk` (the target exits mid-step). -/
theorem step_and_break_at_brk_witness :
    step_and_break ⟨0, some 8, 0, ""⟩ ⟨fun _ => 1, fun _ => true, fun _ => true⟩
        (.ok 8) (.ok ()) (.ok .Exited) =
      .ok (.NotRunning ⟨0, some 8, 0, ""⟩,
           ⟨fun _ => 1, fun _ => true, fun _ => true⟩, [.childExited]) :=
  (step_and_break_at_brk ⟨0, some 8, 0, ""⟩
    ⟨fun _ => 1, fun _ => true, fun _ => true⟩ 8 .Exited rfl).1 rfl

/-- C7: after install (`set_break`), a `step_and_break` at the breakpoint
address with the target surviving the single step leaves the word at the
breakpoint address bit-identical to its value right after the install. -/
theorem install_step_reinstall_roundtrip (info : DbgInfo) (t : Tracee)
    (addr : Nat) (ws : WaitStatus) (h : info.brk_addr = some addr)
    (hr : t.readable addr = true) (hw : t.writable addr = true)
    (hws : ws.isDead = false) :
    ∃ info1 t1 logs1 info2 t2 logs2,
      set_break info t = .ok (info1, t1, logs1) ∧
      step_and_break info1 t1 (.ok addr) (.ok ()) (.ok ws) =
        .ok (.Running info2, t2, logs2) ∧
      t2.mem addr = t1.mem addr := by
  obtain ⟨info1, t1, hsb1, hm1, hrd1, hwr1, hba1, _, _⟩ :=
    set_break_ok_mem info t addr h hr hw
  obtain ⟨info2, t2, hsb2, hm2, _, _, _, _, _⟩ :=
    set_break_ok_mem info1 t1 addr hba1 (by rw [hrd1]; exact hr)
      (by rw [hwr1]; exact hw)
  refine ⟨info1, t1, [], info2, t2, [], hsb1, ?_, ?_⟩
  · simp [step_and_break, hba1, hws, hsb2]
  · rw [hm2]
    exact patch_idem (t1.mem addr)
      (by rw [hm1]; exact patch_low_byte_mod (t.mem addr))

/-- Closed witness for `install_step_reinstall_roundtrip`. -/
theorem install_step_reinstall_roundtrip_witness :
    ∃ info1 t1 logs1 info2 t2 logs2,
      set_break ⟨0, some 8, 0, ""⟩ ⟨fun _ => 0x90, fun _ => true, fun _ => true⟩
        = .ok (info1, t1, logs1) ∧
      step_and_break info1 t1 (.ok 8) (.ok ()) (.ok .Stopped) =
        .ok (.Running info2, t2, logs2) ∧
      t2.mem 8 = t1.mem 8 :=
  install_step_reinstall_roundtrip ⟨0, some 8, 0, ""⟩
    ⟨fun _ => 0x90, fun _ => true, fun _ => true⟩ 8 .Stopped rfl rfl rfl rfl

/-- C6 (violated by the code): `step_and_break` never removes the trap byte
before single-stepping, so on the reachable install → step-over path the
install code runs a second time over the already-patched word and re-saves
`brk_val` from it: starting from original low byte `0x90` at `0x401000`, the
reinstall stores a "original" value whose low byte is the trap encoding
`0xcc` itself. -/
theorem step_and_break_resaves_patched_byte :
    ∃ info1 t1 info2 t2 logs2,
      set_break ⟨0, some 0x401000, 0, "a.out"⟩
          ⟨fun _ => 0x90, fun _ => true, fun _ => true⟩ = .ok (info1, t1, []) ∧
      info1.brk_val % 256 = 0x90 ∧
      t1.mem 0x401000 % 256 = 0xcc ∧
      step_and_break info1 t1 (.ok 0x401000) (.ok ()) (.ok .Stopped) =
        .ok (.Running info2, t2, logs2) ∧
      info2.brk_val = t1.mem 0x401000 ∧
      info2.brk_val % 256 = 0xcc := by
  refine ⟨_, _, _, _, _, rfl, rfl, rfl, rfl, rfl, rfl⟩

/-- C8: `do_run` dispatches on the first `waitpid` status of the child: on
`Stopped` the child's pid is recorded in the `DbgInfo` of the Running-state
debugger on which `set_break` and `do_continue` then run (with their results
propagated); on `Exited`/`Signaled` it fails with "process failed to start";
on every other status it fails with "process is in an invalid state" — both
failures surface as session errors. -/
theorem do_run_first_wait_dispatch (info : DbgInfo) (child : Nat) (t : Tracee)
    (ws : WaitStatus)
    (gr : Except DynErr Word) (sr : Except DynErr Unit)
    (swr : Except DynErr WaitStatus) (cr : Except DynErr Unit)
    (cwr : Except DynErr WaitStatus) :
    (ws = .Stopped →
      ∃ info2 t2 logs,
        set_break { info with pid := child } t = .ok (info2, t2, logs) ∧
        info2.pid = child ∧
        (∀ st t3 logs2,
          do_continue info2 t2 gr sr swr cr cwr = .ok (st, t3, logs2) →
          do_run info child ws t gr sr swr cr cwr =
            .ok (st, t3, .childSpawned child :: (logs ++ logs2))) ∧
        (∀ e, do_continue info2 t2 gr sr swr cr cwr = .error e →
          do_run info child ws t gr sr swr cr cwr = .error e)) ∧
    (ws = .Exited ∨ ws = .Signaled →
      do_run info child ws t gr sr swr cr cwr = .error .failedToStart) ∧
    (ws ≠ .Stopped → ws ≠ .Exited → ws ≠ .Signaled →
      do_run info child ws t gr sr swr cr cwr = .error .invalidState) := by
  refine ⟨?_, ?_, ?_⟩
  · intro hws
    subst hws
    obtain ⟨info2, t2, logs, hsb, hpid⟩ :=
      set_break_ok_pid { info with pid := child } t
    refine ⟨info2, t2, logs, hsb, hpid, ?_, ?_⟩
    · intro st t3 logs2 hdc
      simp [do_run, hsb, hdc]
    · intro e hdc
      simp [do_run, hsb, hdc]
  · rintro (hws | hws) <;> subst hws <;> rfl
  · intro h1 h2 h3
    cases ws
    all_goals first
      | rfl
      | exact absurd rfl h1
      | exact absurd rfl h2
      | exact absurd rfl h3

/-- Closed witness for `do_run_first_wait_dispatch` (child exits before the
first stop). -/
theorem do_run_first_wait_dispatch_witness :
    do_run ⟨0, none, 0, ""⟩ 7 .Exited
        ⟨fun _ => 0, fun _ => true, fun _ => true⟩ (.ok 0) (.ok ())
        (.ok .Stopped) (.ok ()) (.ok .Stopped) = .error .failedToStart :=
  (do_run_first_wait_dispatch ⟨0, none, 0, ""⟩ 7
    ⟨fun _ => 0, fun _ => true, fun _ => true⟩ .Exited (.ok 0) (.ok ())
    (.ok .Stopped) (.ok ()) (.ok .Stopped)).2.1 (Or.inl rfl)

/-- C10: `do_continue` drops the `Result` of `ptrace::cont` on the floor: its
outcome is independent of the cont oracle, and even when the resume request
fails the debugger still proceeds to wait on the child. -/
theorem do_continue_discards_cont_error (info : DbgInfo) (t : Tracee)
    (gr : Except DynErr Word) (sr : Except DynErr Unit)
    (swr : Except DynErr WaitStatus) (cwr : Except DynErr WaitStatus)
    (e : DynErr) (c1 c2 : Except DynErr Unit) :
    do_continue info t gr sr swr c1 cwr = do_continue info t gr sr swr c2 cwr ∧
    (∀ info2 t2 logs st logs2,
      step_and_break info t gr sr swr = .ok (.Running info2, t2, logs) →
      wait_child info2 cwr = .ok (st, logs2) →
      do_continue info t gr sr swr (.error e) cwr =
        .ok (st, t2, logs ++ logs2)) := by
  refine ⟨rfl, ?_⟩
  intro info2 t2 logs st logs2 hsb hwc
  simp [do_continue, hsb, hwc]

/-- Closed witness for `do_continue_discards_cont_error`: the resume request
fails, yet the session result comes from the subsequent wait. -/
theorem do_continue_discards_cont_error_witness :
    do_continue ⟨0, none, 0, ""⟩ ⟨fun _ => 0, fun _ => true, fun _ => true⟩
        (.ok 0) (.ok ()) (.ok .Stopped) (.error .ptraceFail) (.ok .Stopped) =
      .ok (.Running ⟨0, none, 0, ""⟩,
           ⟨fun _ => 0, fun _ => true, fun _ => true⟩, [] ++ []) :=
  (do_continue_discards_cont_error ⟨0, none, 0, ""⟩
    ⟨fun _ => 0, fun _ => true, fun _ => true⟩ (.ok 0) (.ok ()) (.ok .Stopped)
    (.ok .Stopped) .ptraceFail (.ok ()) (.ok ())).2
    ⟨0, none, 0, ""⟩ ⟨fun _ => 0, fun _ => true, fun _ => true⟩ []
    (.Running ⟨0, none, 0, ""⟩) [] rfl rfl

/-- Once an address is recorded, every further `set_break_addr` fails, leaves
the info unchanged, and reports the existing address. -/
theorem run_breaks_already_set (info : DbgInfo) (a : Nat)
    (h : info.brk_addr = some a) (cs : List (Option Nat)) :
    run_breaks info cs =
      (cs.map (fun _ => (false, [LogEvent.alreadySet a])), info) := by
  induction cs with
  | nil => simp [run_breaks]
  | cons c cs ih => simp [run_breaks, set_break_addr, h, ih]

/-- C1: with no breakpoint recorded, over any sequence of `break` commands
exactly the first one carrying a parseable address succeeds: the unparseable
calls before it fail silently, the first parseable call returns `true` and
records the address, and every later call returns `false`, leaves the
recorded address unchanged, and informs the operator of the existing
address. -/
theorem first_break_wins (info : DbgInfo) (h0 : info.brk_addr = none)
    (pre : List (Option Nat)) (hpre : ∀ x ∈ pre, x = none)
    (post : List (Option Nat)) (addr : Nat) :
    run_breaks info (pre ++ some addr :: post) =
      (pre.map (fun _ => (false, ([] : List LogEvent))) ++
        (true, ([] : List LogEvent)) ::
        post.map (fun _ => (false, [LogEvent.alreadySet addr])),
       { info with brk_addr := some addr }) := by
  induction pre with
  | nil =>
    simp [run_breaks, set_break_addr, h0,
      run_breaks_already_set { info with brk_addr := some addr } addr rfl post]
  | cons c cs ih =>
    have hc : c = none := hpre c (List.mem_cons_self c cs)
    have hcs : ∀ x ∈ cs, x = none := fun x hx =>
      hpre x (List.mem_cons_of_mem c hx)
    subst hc
    simp [run_breaks, set_break_addr, h0, ih hcs]

/-- Closed witness for `first_break_wins`. -/
theorem first_break_wins_witness :
    run_breaks ⟨0, none, 0, ""⟩ [none, some 5, some 7, none] =
      ([(false, []), (true, []), (false, [LogEvent.alreadySet 5]),
        (false, [LogEvent.alreadySet 5])],
       ⟨0, some 5, 0, ""⟩) := by
  have h := first_break_wins ⟨0, none, 0, ""⟩ rfl [none] (by simp)
    [some 7, none] 5
  simpa using h

/-- `do_exit` never returns while every observed status is still alive. -/
theorem do_exit_none_of_alive (l : List WaitStatus)
    (hl : ∀ x ∈ l, x.isDead = false) : do_exit l = none := by
  induction l with
  | nil => rfl
  | cons ws rest ih =>
    have h1 : ws.isDead = false := hl ws (List.mem_cons_self ws rest)
    have h2 : ∀ x ∈ rest, x.isDead = false := fun x hx =>
      hl x (List.mem_cons_of_mem ws hx)
    simp [do_exit, h1, ih h2]

/-- `do_exit` returns right after the first dead status, having sent one kill
request per observed status. -/
theorem do_exit_first_dead (pre : List WaitStatus)
    (hpre : ∀ x ∈ pre, x.isDead = false) (ws : WaitStatus)
    (hws : ws.isDead = true) (post : List WaitStatus) :
    do_exit (pre ++ ws :: post) = some (pre.length + 1) := by
  induction pre with
  | nil => simp [do_exit, hws]
  | cons c cs ih =>
    have h1 : c.isDead = false := hpre c (List.mem_cons_self c cs)
    have h2 : ∀ x ∈ cs, x.isDead = false := fun x hx =>
      hpre x (List.mem_cons_of_mem c hx)
    simp [do_exit, h1, ih h2]

/-- C9: on `exit` in the Running state the debugger kills and waits in a loop:
it returns — and only then does `do_cmd` produce the terminal `State.Exit` —
exactly when an `Exited`/`Signaled` status is observed, after one kill request
per observed status; over a stream of statuses in which the target never
reports dead it does not return, and no `Exit` transition happens. -/
theorem do_exit_kills_until_dead (pre post l : List WaitStatus)
    (ws : WaitStatus) (hpre : ∀ x ∈ pre, x.isDead = false)
    (hws : ws.isDead = true) (hl : ∀ x ∈ l, x.isDead = false) :
    do_exit (pre ++ ws :: post) = some (pre.length + 1) ∧
    do_cmd_exit (pre ++ ws :: post) = some State.Exit ∧
    do_exit l = none ∧
    do_cmd_exit l = none := by
  refine ⟨do_exit_first_dead pre hpre ws hws post, ?_,
    do_exit_none_of_alive l hl, ?_⟩
  · simp [do_cmd_exit, do_exit_first_dead pre hpre ws hws post]
  · simp [do_cmd_exit, do_exit_none_of_alive l hl]

/-- Closed witness for `do_exit_kills_until_dead`. -/
theorem do_exit_kills_until_dead_witness :
    do_exit [.Stopped, .Exited] = some 2 ∧
    do_cmd_exit [.Stopped, .Exited] = some State.Exit ∧
    do_exit [.Stopped, .Continued] = none ∧
    do_cmd_exit [.Stopped, .Continued] = none :=
  do_exit_kills_until_dead [.Stopped] [] [.Stopped, .Continued] .Exited
    (by decide) rfl (by decide)

end ZDbg
